import Mathlib

/-!
# Verification of the shopify-collector print-dispatch pipeline

Shallow embedding of the core of the repository:

* `src/relay/main.py` — the in-memory job broker (enqueue / pull / ack);
* `src/agent/poller.py` — the polling agent (gating, print-sink call,
  ack / requeue, main loop);
* `src/backend/app/main.py` — the override cache (`orders_update_webhook`,
  `get_overrides`, `_fetch_live_for_store`, `_override_is_complete`).

Python dicts keyed by strings are embedded as association lists
(`List (String × α)`) with first-match lookup and in-place replacement on
assignment; Python string truthiness (`""` and `None` falsy) is made explicit;
HTTP exceptions become `Except`-style results paired with the unchanged state.
External I/O (Shopify, the print sink, the broker seen from the agent) is
supplied through explicit oracle environments so that the control flow of the
embedded functions stays exactly that of the source.
-/

/-! ## Python-style helpers -/

/-- `lstrip("#")`: drop every leading `'#'` character. -/
def stripHash (s : String) : String :=
  String.mk (s.toList.dropWhile (fun c => c = '#'))

/-- Python `str.strip()`: drop leading and trailing whitespace
(kernel-computable, unlike `String.trim`). -/
def pyStrip (s : String) : String :=
  String.mk (((s.toList.dropWhile Char.isWhitespace).reverse.dropWhile
    Char.isWhitespace).reverse)

/-- Python `str.lower()` (ASCII, which is all the code compares). -/
def pyLower (s : String) : String :=
  String.mk (s.toList.map Char.toLower)

/-- Python `str.split(",")`: split on every comma, keeping empty pieces. -/
def splitCommaAux : List Char → List Char → List String
  | [], acc => [String.mk acc.reverse]
  | c :: rest, acc =>
    if c = ',' then String.mk acc.reverse :: splitCommaAux rest []
    else splitCommaAux rest (c :: acc)

/-- Python `str.split(",")`. -/
def splitComma (s : String) : List String :=
  splitCommaAux s.toList []

/-- Truthiness of an optional Python string: `None` and `""` are falsy. -/
def optTruthy (a : Option String) : Bool :=
  match a with
  | none => false
  | some s => s ≠ ""

/-- Python `a or b` on strings (`""` is falsy). -/
def pyOrStr (a b : String) : String :=
  if a ≠ "" then a else b

/-- Collapse an optional Python string, `x or ""`. -/
def strOf (a : Option String) : String := a.getD ""

/-- Python `x or None` on an optional string: `""` collapses to `None`. -/
def orNone (a : Option String) : Option String :=
  if optTruthy a then a else none

/-! ## Association lists standing for Python dicts -/

/-- Lookup, `d.get(k)`. -/
def dictGet {α : Type} (m : List (String × α)) (k : String) : Option α :=
  match m with
  | [] => none
  | (k', v) :: t => if k' = k then some v else dictGet t k

/-- Assignment `d[k] = v`: replace in place, else append (insertion order kept). -/
def dictSet {α : Type} (m : List (String × α)) (k : String) (v : α) :
    List (String × α) :=
  match m with
  | [] => [(k, v)]
  | (k', v') :: t => if k' = k then (k', v) :: t else (k', v') :: dictSet t k v

/-- `d.update(d2)`: assign every entry of `d2` into `d`, in order. -/
def dictUpdate {α : Type} (m m2 : List (String × α)) : List (String × α) :=
  m2.foldl (fun acc p => dictSet acc p.1 p.2) m

theorem dictGet_dictSet_self {α : Type} (m : List (String × α)) (k : String) (v : α) :
    dictGet (dictSet m k v) k = some v := by
  induction m with
  | nil => simp [dictSet, dictGet]
  | cons p t ih =>
    obtain ⟨k', v'⟩ := p
    by_cases h : k' = k
    · simp [dictSet, dictGet, h]
    · simp [dictSet, dictGet, h, ih]

theorem dictGet_dictSet_ne {α : Type} (m : List (String × α)) (k k' : String) (v : α)
    (h : k' ≠ k) : dictGet (dictSet m k v) k' = dictGet m k' := by
  induction m with
  | nil => simp [dictSet, dictGet, Ne.symm h]
  | cons p t ih =>
    obtain ⟨k0, v0⟩ := p
    by_cases h0 : k0 = k
    · subst h0
      simp [dictSet, dictGet, Ne.symm h]
    · simp only [dictSet, if_neg h0, dictGet]
      by_cases h1 : k0 = k'
      · simp [h1]
      · simp [h1, ih]

/-! ## Relay broker (`src/relay/main.py`) -/

/-- A queued job, the dict built by `enqueue`. -/
structure Job where
  job_id : String
  ts : Nat
  orders : List String
  copies : Int
  pdf_url : Option String
  store : Option String
deriving Repr, DecidableEq

/-- HTTP-style error (`HTTPException(status_code, detail)`). -/
structure HErr where
  status : Nat
  detail : String
deriving Repr, DecidableEq

/-- Request body of `POST /enqueue`. -/
structure EnqueueBody where
  pc_id : String
  orders : List String
  copies : Int
  pdf_url : Option String
  store : Option String
deriving Repr, DecidableEq

/-- Response of a successful `POST /enqueue`. -/
structure EnqueueResp where
  job_id : String
  queued : Nat
deriving Repr, DecidableEq

/-- The in-memory queue map `JOBS : {pc_id -> [jobs]}`. -/
abbrev BrokerSt : Type := List (String × List Job)

/-- The static PC registry `PCS : {pc_id -> secret}`. -/
abbrev PcRegistry : Type := List (String × String)

/-- `_require_pc` as a Boolean: `expect = PCS.get(pc_id)`,
fail when `not expect or secret != expect`. -/
def requirePcOk (pcs : PcRegistry) (pc_id secret : String) : Bool :=
  match dictGet pcs pc_id with
  | none => false
  | some expect => expect ≠ "" && secret = expect

/-- `_require_api_key` rejection test: `if API_KEY and x_api_key != API_KEY`. -/
def apiKeyRejects (apiKey : String) (xApiKey : Option String) : Bool :=
  apiKey ≠ "" && xApiKey ≠ some apiKey

/-- The job dict built by `enqueue` (`jid` stands for the fresh
`uuid.uuid4()` value and `ts` for `int(time.time())`). -/
def mkJob (body : EnqueueBody) (jid : String) (ts : Nat) : Job :=
  { job_id := jid
    ts := ts
    orders := body.orders.map stripHash
    copies := max 1 body.copies
    pdf_url := orNone body.pdf_url
    store := orNone body.store }

/-- `POST /enqueue`.  An HTTP exception leaves the queue map untouched, so the
embedding returns the unchanged state alongside the error. -/
def enqueue (apiKey : String) (pcs : PcRegistry) (st : BrokerSt)
    (body : EnqueueBody) (xApiKey : Option String) (jid : String) (ts : Nat) :
    Except HErr EnqueueResp × BrokerSt :=
  if apiKeyRejects apiKey xApiKey then
    (Except.error ⟨401, "bad api key"⟩, st)
  else if (dictGet pcs body.pc_id).isNone then
    (Except.error ⟨404, "unknown pc_id"⟩, st)
  else
    let payload := mkJob body jid ts
    let q := (dictGet st body.pc_id).getD []
    let st' := dictSet st body.pc_id (q ++ [payload])
    (Except.ok ⟨jid, (q ++ [payload]).length⟩, st')

/-- `GET /pull`. -/
def pull (pcs : PcRegistry) (st : BrokerSt) (pc_id secret : String)
    (maxItems : Nat) : Except HErr (List Job) × BrokerSt :=
  if requirePcOk pcs pc_id secret then
    let q := (dictGet st pc_id).getD []
    if q = [] then (Except.ok [], st)
    else (Except.ok (q.take maxItems), dictSet st pc_id (q.drop maxItems))
  else
    (Except.error ⟨401, "unauthorized"⟩, st)

/-- `POST /ack` (source name `ack`; renamed, the short name is taken by
Mathlib): auth check only, queue state untouched. -/
def ackRoute (pcs : PcRegistry) (st : BrokerSt) (pc_id secret : String) :
    Except HErr Unit × BrokerSt :=
  if requirePcOk pcs pc_id secret then (Except.ok (), st)
  else (Except.error ⟨401, "unauthorized"⟩, st)

/-! ## Override records and the completeness predicates -/

/-- The `customer` sub-dict of an override record. -/
structure Customer where
  displayName : Option String
  email : Option String
  phone : Option String
deriving Repr, DecidableEq

/-- The `shippingAddress` sub-dict of an override record. -/
structure ShippingAddress where
  name : Option String
  address1 : Option String
  address2 : Option String
  city : Option String
  zip : Option String
  province : Option String
  country : Option String
  phone : Option String
deriving Repr, DecidableEq

/-- A cached override record (value of `ORDER_OVERRIDES[key]`). -/
structure OverrideRecord where
  store : Option String
  customer : Option Customer
  shippingAddress : Option ShippingAddress
  email : Option String
  phone : Option String
  tags : Option String
deriving Repr, DecidableEq

def emptyCustomer : Customer := ⟨none, none, none⟩

def emptyShipping : ShippingAddress := ⟨none, none, none, none, none, none, none, none⟩

/-- Backend `_override_is_complete` (src/backend/app/main.py):
`name_ok = bool((cust.displayName or "").strip() or (shp.name or "").strip())`;
`contact_ok = bool((cust.email or ov.email or "").strip()
               or (cust.phone or ov.phone or (shp.phone or "")).strip())`. -/
def overrideIsComplete (ov : OverrideRecord) : Bool :=
  let cust := ov.customer.getD emptyCustomer
  let shp := ov.shippingAddress.getD emptyShipping
  let nameOk := pyStrip (strOf cust.displayName) ≠ "" || pyStrip (strOf shp.name) ≠ ""
  let contactOk :=
    pyStrip (pyOrStr (strOf cust.email) (strOf ov.email)) ≠ "" ||
    pyStrip (pyOrStr (strOf cust.phone) (pyOrStr (strOf ov.phone) (strOf shp.phone))) ≠ ""
  nameOk && contactOk

/-- Agent `_is_complete` (src/agent/poller.py): identical body to the backend
predicate, plus the `isinstance(ov, dict)` guard for a missing record. -/
def agentIsComplete (o : Option OverrideRecord) : Bool :=
  match o with
  | none => false
  | some ov =>
    let cust := ov.customer.getD emptyCustomer
    let shp := ov.shippingAddress.getD emptyShipping
    let nameOk := pyStrip (strOf cust.displayName) ≠ "" || pyStrip (strOf shp.name) ≠ ""
    let contactOk :=
      pyStrip (pyOrStr (strOf cust.email) (strOf ov.email)) ≠ "" ||
      pyStrip (pyOrStr (strOf cust.phone) (pyOrStr (strOf ov.phone) (strOf shp.phone))) ≠ ""
    nameOk && contactOk

/-- Modelled from the spec: the completeness predicate as the spec words it —
`contactOk` holds iff a non-empty (after trimming) email or phone is found
among the customer fields, the record's root-level email/phone fields, or the
shipping address.  Used only to compare the spec's wording with the code. -/
def specComplete (ov : OverrideRecord) : Bool :=
  let cust := ov.customer.getD emptyCustomer
  let shp := ov.shippingAddress.getD emptyShipping
  let nameOk := pyStrip (strOf cust.displayName) ≠ "" || pyStrip (strOf shp.name) ≠ ""
  let contactOk :=
    pyStrip (strOf cust.email) ≠ "" || pyStrip (strOf ov.email) ≠ "" ||
    pyStrip (strOf cust.phone) ≠ "" || pyStrip (strOf ov.phone) ≠ "" ||
    pyStrip (strOf shp.phone) ≠ ""
  nameOk && contactOk

/-! ## Backend override cache (`src/backend/app/main.py`) -/

/-- The override cache `ORDER_OVERRIDES : {order_number -> record}`. -/
abbrev OvCache : Type := List (String × OverrideRecord)

/-- An overrides result map (the `out` dict of `get_overrides`). -/
abbrev OvMap : Type := List (String × OverrideRecord)

/-- Shopify-side customer dict (`customer` of a webhook payload or a fetched
order): `first_name`, `last_name`, `email`, `phone`. -/
structure WireCustomer where
  first_name : Option String
  last_name : Option String
  email : Option String
  phone : Option String
deriving Repr, DecidableEq

/-- Shopify-side shipping-address dict. -/
structure WireShipping where
  name : Option String
  first_name : Option String
  last_name : Option String
  address1 : Option String
  address2 : Option String
  city : Option String
  zip : Option String
  postal_code : Option String
  province : Option String
  country : Option String
  phone : Option String
deriving Repr, DecidableEq

/-- The fields of an `orders/update` webhook payload that the handler reads. -/
structure WebhookPayload where
  name : Option String
  customer : Option WireCustomer
  shipping_address : Option WireShipping
  email : Option String
  phone : Option String
  tags : Option String
deriving Repr, DecidableEq

def emptyWireCustomer : WireCustomer := ⟨none, none, none, none⟩

def emptyWireShipping : WireShipping :=
  ⟨none, none, none, none, none, none, none, none, none, none, none⟩

/-- `displayName` as built by both the webhook handler and the live fetch:
`((first_name or "").strip() + (" " + (last_name or "").strip() if last_name else "")).strip()`. -/
def mkDisplayName (cust : WireCustomer) : String :=
  pyStrip ((pyStrip (strOf cust.first_name)) ++
    (if optTruthy cust.last_name then " " ++ pyStrip (strOf cust.last_name) else ""))

/-- `shippingAddress.name` as built by both handlers:
`shp.name or (str(shp.first_name or "").strip() + " " + str(shp.last_name or "").strip()).strip()`. -/
def mkShippingName (shp : WireShipping) : Option String :=
  if optTruthy shp.name then shp.name
  else some (pyStrip (pyStrip (strOf shp.first_name) ++ " " ++ pyStrip (strOf shp.last_name)))

/-- Python `a or b` on two optional strings (result may still be falsy). -/
def pyOr2 (a b : Option String) : Option String :=
  if optTruthy a then a else b

/-- The override record written by `orders_update_webhook` (lines 2542-2562). -/
def webhookOverride (data : WebhookPayload) (storeKey : String) : OverrideRecord :=
  let customer := data.customer.getD emptyWireCustomer
  let shipping := data.shipping_address.getD emptyWireShipping
  { store := some storeKey
    customer := some
      { displayName := some (mkDisplayName customer)
        email := pyOr2 customer.email data.email
        phone := pyOr2 customer.phone data.phone }
    shippingAddress := some
      { name := mkShippingName shipping
        address1 := shipping.address1
        address2 := shipping.address2
        city := shipping.city
        zip := pyOr2 shipping.zip shipping.postal_code
        province := shipping.province
        country := shipping.country
        phone := pyOr2 shipping.phone (pyOr2 customer.phone data.phone) }
    email := data.email
    phone := data.phone
    tags := data.tags }

/-- `orders_update_webhook` cache effect (after HMAC verification): when the
payload's order `name` is non-empty after trimming, the record built from the
payload is written unconditionally at the normalized key. -/
def ordersUpdateWebhook (cache : OvCache) (data : WebhookPayload)
    (storeKey : String) : OvCache :=
  let orderName := pyStrip (strOf data.name)
  if orderName ≠ "" then
    dictSet cache (stripHash orderName) (webhookOverride data storeKey)
  else cache

/-- The fields of a full Shopify order (`r2.json()["order"]`) that
`_fetch_live_for_store` reads. -/
structure ShopOrder where
  customer : Option WireCustomer
  shipping_address : Option WireShipping
  email : Option String
  phone : Option String
deriving Repr, DecidableEq

/-- The override record built by `_fetch_live_for_store` (lines 2622-2642)
from a fetched order. -/
def liveOverride (storeKey : String) (o : ShopOrder) : OverrideRecord :=
  let cust := o.customer.getD emptyWireCustomer
  let shp := o.shipping_address.getD emptyWireShipping
  let rootEmail := pyStrip (strOf o.email)
  let rootPhone := pyStrip (strOf o.phone)
  { store := some storeKey
    customer := some
      { displayName := some (mkDisplayName cust)
        email := orNone (pyOr2 cust.email (some rootEmail))
        phone := orNone (pyOr2 cust.phone (some rootPhone)) }
    shippingAddress := some
      { name := mkShippingName shp
        address1 := shp.address1
        address2 := shp.address2
        city := shp.city
        zip := pyOr2 shp.zip shp.postal_code
        province := shp.province
        country := shp.country
        phone := orNone (pyOr2 shp.phone (pyOr2 cust.phone (some rootPhone))) }
    email := pyOr2 (some rootEmail) cust.email
    phone := pyOr2 (some rootPhone) cust.phone
    tags := none }

/-- Oracle for the backend's external dependencies: `avail s` models
`resolve_store_settings_effective` yielding a usable domain and token for
store `s`; `fetchOrder s k` models the two-step Shopify lookup of order
number `k` (`none` stands for "no result" or any network/parse failure). -/
structure OvEnv where
  avail : String → Bool
  fetchOrder : String → String → Option ShopOrder

/-- State threaded through `get_overrides`: the result dict `out`, the global
cache `ORDER_OVERRIDES`, and a log of the live-fetch attempts performed
(`(store_key, order_number)` pairs). -/
structure OvState where
  out : OvMap
  cache : OvCache
  fetched : List (String × String)
deriving Repr, DecidableEq

/-- The skip test of `_fetch_live_for_store`:
`(k in out) and _override_is_complete(out[k]) and not force_live`. -/
def skipKey (s : OvState) (k : String) (forceLive : Bool) : Bool :=
  match dictGet s.out k with
  | some r => overrideIsComplete r && !forceLive
  | none => false

/-- One iteration of the `for k in keys` loop of `_fetch_live_for_store`:
skip if `k in out` and complete and not forcing; otherwise attempt the live
fetch and, on success, write the built record to both `out` and the cache. -/
def fetchLiveStep (env : OvEnv) (storeKey : String) (forceLive : Bool)
    (s : OvState) (k : String) : OvState :=
  if skipKey s k forceLive then s
  else
    match env.fetchOrder storeKey k with
    | none => { s with fetched := s.fetched ++ [(storeKey, k)] }
    | some o =>
      let ov := liveOverride storeKey o
      { out := dictSet s.out k ov
        cache := dictSet s.cache k ov
        fetched := s.fetched ++ [(storeKey, k)] }

/-- `_fetch_live_for_store`: no-op when the store has no usable settings. -/
def fetchLiveForStore (env : OvEnv) (keys : List String) (storeKey : String)
    (forceLive : Bool) (s : OvState) : OvState :=
  if env.avail storeKey then keys.foldl (fetchLiveStep env storeKey forceLive) s
  else s

/-- CSV parsing of the `orders` query parameter:
`[o.strip().lstrip("#") for o in orders.split(",") if o.strip()]`. -/
def parseOrdersCsv (orders : String) : List String :=
  (splitComma orders).filterMap
    (fun o => if pyStrip o ≠ "" then some (stripHash (pyStrip o)) else none)

/-- Seeding loop of `get_overrides`:
`for k in keys: if k in ORDER_OVERRIDES: out[k] = ORDER_OVERRIDES[k]`. -/
def seedFromCache (cache : OvCache) (keys : List String) : OvMap :=
  keys.foldl
    (fun acc k =>
      match dictGet cache k with
      | some r => dictSet acc k r
      | none => acc) []

/-- `GET /api/overrides` (`get_overrides`): seed from cache, then live-enrich
for the requested store, or for `"irrakids"` then `"irranova"` when no store
was given. -/
def getOverrides (env : OvEnv) (cache : OvCache) (orders : String)
    (store : Option String) (forceLive : Bool) : OvState :=
  let keys := parseOrdersCsv orders
  let s0 : OvState := ⟨seedFromCache cache keys, cache, []⟩
  let storeKey := pyLower (pyStrip (strOf store))
  if storeKey ≠ "" then fetchLiveForStore env keys storeKey forceLive s0
  else
    fetchLiveForStore env keys "irranova" forceLive
      (fetchLiveForStore env keys "irrakids" forceLive s0)

/-! ## Agent (`src/agent/poller.py`) -/

/-- The backoff table of the gating loop: `wait_secs = [0.0, 1.0, 2.0]`
(whole seconds, embedded as naturals). -/
def waitSecs : List Nat := [0, 1, 2]

/-- `enumerate(attempts)` for `attempts = [False, True, True]`. -/
def gateAttemptsPlan : List (Nat × Bool) := [(0, false), (1, true), (2, true)]

/-- The `all_ok` check after one fetch: every order of the job, key-normalized,
must have a complete override. -/
def allComplete (orders : List String) (ov : OvMap) : Bool :=
  orders.all (fun o => agentIsComplete (dictGet ov (stripHash o)))

/-- `missing = [o normalized | o in orders if not complete(overrides[o])]`. -/
def missingOf (orders : List String) (ov : OvMap) : List String :=
  (orders.map stripHash).filter (fun k => !agentIsComplete (dictGet ov k))

/-- JSON body of the print sink's response; per the sink contract the two
fields are optional booleans (`{}` also stands for a non-JSON body). -/
structure SinkResp where
  ok : Option Bool
  skipped_all : Option Bool
deriving Repr, DecidableEq

/-- Oracle environment for one `print_locally` call: `fetch i force` is the
overrides map returned by the `/api/overrides` call of gate attempt `i`
(`_fetch_overrides` returns `{}` on any failure); `fallback ms` is the map
returned by the explicit `store=irranova, force_live=1` call for the missing
orders `ms` (again `{}` on failure); `sink` is the print sink's answer,
`none` standing for a raised HTTP/network error. -/
structure PLEnv where
  fetch : Nat → Bool → OvMap
  fallback : List String → OvMap
  sink : Option SinkResp

deriving instance DecidableEq for Except

/-- Observable trace of one `print_locally` call. -/
structure PLTrace where
  gateAttempts : List (Bool × Nat)
  fallbackCall : Option (List String)
  nonGatedFetch : Bool
  sinkInvoked : Bool
  result : Except Unit Bool
deriving Repr, DecidableEq

/-- The `for idx, force in enumerate(attempts)` loop: each iteration sleeps
`wait_secs[idx]` (for `idx > 0`), refetches, and breaks once `all_ok`.
Returns the final `overrides` dict and the `(force_live, delay)` trace of the
attempts actually made. -/
def runGateAttempts (orders : List String) (fetch : Nat → Bool → OvMap) :
    List (Nat × Bool) → OvMap → OvMap × List (Bool × Nat)
  | [], ov => (ov, [])
  | (idx, force) :: rest, _ =>
    let delay := if idx > 0 then waitSecs.getD idx 0 else 0
    let ov := fetch idx force
    if allComplete orders ov then (ov, [(force, delay)])
    else
      let (ovF, tr) := runGateAttempts orders fetch rest ov
      (ovF, (force, delay) :: tr)

/-- Interpretation of the sink's JSON body (lines 147-152): printed unless an
explicit falsy `ok` or a truthy `skipped_all`. -/
def interpretSinkResp (d : SinkResp) : Bool :=
  if !(d.ok.getD true) then false
  else if d.skipped_all.getD false then false
  else true

/-- Final `overrides` dict of the gating loop. -/
def gateLoopOv (env : PLEnv) (orders : List String) : OvMap :=
  (runGateAttempts orders env.fetch gateAttemptsPlan []).1

/-- `(force_live, delay)` trace of the gating loop's attempts. -/
def gateLoopTrace (env : PLEnv) (orders : List String) : List (Bool × Nat) :=
  (runGateAttempts orders env.fetch gateAttemptsPlan []).2

/-- The sink call and interpretation of its body (lines 141-152): a raised
HTTP error is the `Except.error`; a body that fails to parse is `{}`. -/
def sinkResult (env : PLEnv) : Except Unit Bool :=
  match env.sink with
  | none => Except.error ()
  | some d => Except.ok (interpretSinkResp d)

/-- Overrides after the optional explicit-irranova fallback call, together
with the orders that call was made for (`none` when it was not made): the
fallback runs when orders are still missing and the store was unspecified,
and merges its result into `overrides` via `dict.update`. -/
def gatedFallback (env : PLEnv) (orders : List String) (storeKey : String) :
    OvMap × Option (List String) :=
  if missingOf orders (gateLoopOv env orders) ≠ [] ∧ storeKey = "" then
    (dictUpdate (gateLoopOv env orders)
      (env.fallback (missingOf orders (gateLoopOv env orders))),
     some (missingOf orders (gateLoopOv env orders)))
  else (gateLoopOv env orders, none)

/-- `print_locally`.  The best-effort `/api/print-data` fetch only enriches
the payload and cannot change the control flow, so it is not modelled. -/
def printLocally (env : PLEnv) (orders : List String) (store : Option String) :
    PLTrace :=
  if pyLower (pyStrip (strOf store)) = "irranova" ∨
      pyLower (pyStrip (strOf store)) = "" then
    if missingOf orders
        (gatedFallback env orders (pyLower (pyStrip (strOf store)))).1 ≠ [] then
      { gateAttempts := gateLoopTrace env orders
        fallbackCall := (gatedFallback env orders (pyLower (pyStrip (strOf store)))).2
        nonGatedFetch := false, sinkInvoked := false, result := Except.ok false }
    else
      { gateAttempts := gateLoopTrace env orders
        fallbackCall := (gatedFallback env orders (pyLower (pyStrip (strOf store)))).2
        nonGatedFetch := false, sinkInvoked := true, result := sinkResult env }
  else
    { gateAttempts := [], fallbackCall := none, nonGatedFetch := true
      sinkInvoked := true, result := sinkResult env }

/-- The `/enqueue` body rebuilt by `requeue_job`: orders re-normalized,
`copies` defaulted to 1 when falsy, `store` included only when truthy. -/
def requeuePayloadOf (orders : List String) (copies : Int)
    (store : Option String) : List String × Int × Option String :=
  (orders.map stripHash,
   if copies ≠ 0 then copies else 1,
   if optTruthy store then store else none)

/-- Oracle for the handling of one pulled job: the `print_locally`
environment, whether the `/ack` call succeeds, and whether the re-`/enqueue`
of `requeue_job` succeeds. -/
structure JobEnv where
  pl : PLEnv
  ackOk : Bool
  requeueOk : Bool

/-- Outcome of the body of `for job in jobs` in `main`. -/
structure JobOutcome where
  jobId : String
  trace : PLTrace
  printed : Bool
  ackCalled : Bool
  ackRaised : Bool
  requeueCalled : Bool
  requeuePayload : Option (List String × Int × Option String)
  requeueOk : Bool
deriving Repr, DecidableEq

/-- One iteration of `for job in jobs`: `print_locally` with its own
try/except, then ack (which may raise out of the loop) or requeue (which
never raises). -/
def processJob (env : JobEnv) (job : Job) : JobOutcome :=
  let t := printLocally env.pl job.orders job.store
  let printed := match t.result with | Except.ok b => b | Except.error _ => false
  if printed then
    { jobId := job.job_id, trace := t, printed := true
      ackCalled := true, ackRaised := !env.ackOk
      requeueCalled := false, requeuePayload := none, requeueOk := false }
  else
    { jobId := job.job_id, trace := t, printed := false
      ackCalled := false, ackRaised := false
      requeueCalled := true
      requeuePayload := some (requeuePayloadOf job.orders job.copies job.store)
      requeueOk := env.requeueOk }

/-- The `for job in jobs` loop: a raised ack error aborts the remainder of
the batch and propagates to the top-level handler. -/
def runJobs (env : Nat → JobEnv) : List Job → Nat → List JobOutcome × Bool
  | [], _ => ([], false)
  | job :: rest, i =>
    let o := processJob (env i) job
    if o.ackRaised then ([o], true)
    else
      let (os, c) := runJobs env rest (i + 1)
      (o :: os, c)

/-- Result of one iteration of the agent's `while True` loop. -/
structure CycleResult where
  outcomes : List JobOutcome
  caught : Bool
  sleepSecs : Nat
deriving Repr, DecidableEq

/-- One cycle of `main`: pull (which may itself raise), process the batch,
then sleep `PULL_INTERVAL_SEC`; any exception is caught, logged, and followed
by the fixed 3-second cooldown. -/
def runCycle (pullRes : Except Unit (List Job)) (env : Nat → JobEnv)
    (pullInterval : Nat) : CycleResult :=
  match pullRes with
  | Except.error _ => ⟨[], true, 3⟩
  | Except.ok jobs =>
    let (os, c) := runJobs env jobs 0
    ⟨os, c, if c then 3 else pullInterval⟩

/-! ## Claims about the relay broker -/

/-- C2: for every `pc_id` queue, `pull(max_items=N)` then `pull(max_items=M)`
with no interleaving enqueues returns two disjoint job lists whose
concatenation is the first `min(total, N+M)` jobs in FIFO (enqueue) order,
and pulling from an empty queue returns an empty list, not an error. -/
theorem pull_fifo_split (pcs : PcRegistry) (st : BrokerSt) (pc secret : String)
    (n m : Nat) (hauth : requirePcOk pcs pc secret = true)
    (hnodup : ((dictGet st pc).getD []).Nodup) :
    (pull pcs st pc secret n).1 =
        Except.ok (((dictGet st pc).getD []).take n) ∧
    (pull pcs (pull pcs st pc secret n).2 pc secret m).1 =
        Except.ok ((((dictGet st pc).getD []).drop n).take m) ∧
    (((dictGet st pc).getD []).take n).Disjoint
        ((((dictGet st pc).getD []).drop n).take m) ∧
    ((dictGet st pc).getD []).take n ++ (((dictGet st pc).getD []).drop n).take m =
        ((dictGet st pc).getD []).take (n + m) ∧
    (((dictGet st pc).getD []).take (n + m)).length =
        min (n + m) ((dictGet st pc).getD []).length ∧
    ((dictGet st pc).getD [] = [] → (pull pcs st pc secret n).1 = Except.ok []) := by
  set q : List Job := (dictGet st pc).getD [] with hq
  have hsplit : q.take n ++ (q.drop n).take m = q.take (n + m) :=
    (List.take_add q n m).symm
  have hdisj : (q.take n).Disjoint ((q.drop n).take m) := by
    apply List.disjoint_of_nodup_append
    rw [hsplit]
    exact List.Nodup.sublist (List.take_sublist _ _) hnodup
  by_cases hempty : q = []
  · refine ⟨?_, ?_, hdisj, hsplit, by simp, fun _ => ?_⟩
    · simp [pull, hauth, ← hq, hempty]
    · simp [pull, hauth, ← hq, hempty]
    · simp [pull, hauth, ← hq, hempty]
  · have h1 : pull pcs st pc secret n =
        (Except.ok (q.take n), dictSet st pc (q.drop n)) := by
      simp [pull, hauth, ← hq, hempty]
    refine ⟨by rw [h1], ?_, hdisj, hsplit, by simp, fun h => absurd h hempty⟩
    rw [h1]
    by_cases h2 : q.drop n = []
    · simp [pull, hauth, dictGet_dictSet_self, h2]
    · simp [pull, hauth, dictGet_dictSet_self, h2]

/-- Concrete job fixture for witnesses. -/
def jobFix (id order : String) : Job :=
  { job_id := id, ts := 0, orders := [order], copies := 1,
    pdf_url := none, store := none }

/-- Concrete registry fixture for witnesses. -/
def pcsFix : PcRegistry := [("pc-lab-1", "SECRET1")]

/-- Concrete three-job queue fixture for witnesses. -/
def stFix : BrokerSt := [("pc-lab-1", [jobFix "a" "1", jobFix "b" "2", jobFix "c" "3"])]

theorem pull_fifo_split_witness :
    (requirePcOk pcsFix "pc-lab-1" "SECRET1" = true ∧
      ((dictGet stFix "pc-lab-1").getD []).Nodup) ∧
    (pull pcsFix stFix "pc-lab-1" "SECRET1" 2).1 =
      Except.ok [jobFix "a" "1", jobFix "b" "2"] :=
  ⟨⟨by decide, by decide⟩,
    (pull_fifo_split pcsFix stFix "pc-lab-1" "SECRET1" 2 2
      (by decide) (by decide)).1⟩

/-- C8: `pull` with a secret that does not match the registry entry of a
registered `pc_id` returns 401 Unauthorized and leaves the whole queue map
(hence every queue and its depth) unchanged. -/
theorem pull_bad_secret (pcs : PcRegistry) (st : BrokerSt)
    (pc secret expect : String) (maxItems : Nat)
    (hreg : dictGet pcs pc = some expect) (hne : secret ≠ expect) :
    pull pcs st pc secret maxItems = (Except.error ⟨401, "unauthorized"⟩, st) := by
  have hbad : requirePcOk pcs pc secret = false := by
    simp [requirePcOk, hreg, hne]
  simp [pull, hbad]

theorem pull_bad_secret_witness :
    (dictGet pcsFix "pc-lab-1" = some "SECRET1" ∧ "WRONG" ≠ "SECRET1") ∧
    pull pcsFix stFix "pc-lab-1" "WRONG" 5 =
      (Except.error ⟨401, "unauthorized"⟩, stFix) :=
  ⟨⟨by decide, by decide⟩,
    pull_bad_secret pcsFix stFix "pc-lab-1" "WRONG" "SECRET1" 5
      (by decide) (by decide)⟩

/-- Unfolding of `enqueue` on the success path. -/
theorem enqueue_ok_eq (apiKey : String) (pcs : PcRegistry) (st : BrokerSt)
    (body : EnqueueBody) (xApiKey : Option String) (jid : String) (ts : Nat)
    (expect : String)
    (hk : apiKeyRejects apiKey xApiKey = false)
    (hpc : dictGet pcs body.pc_id = some expect) :
    enqueue apiKey pcs st body xApiKey jid ts =
      (Except.ok ⟨jid, (((dictGet st body.pc_id).getD []) ++ [mkJob body jid ts]).length⟩,
        dictSet st body.pc_id (((dictGet st body.pc_id).getD []) ++ [mkJob body jid ts])) := by
  simp [enqueue, hk, hpc]

/-- C5: a successful `enqueue` strips leading `#` from every order number,
clamps `copies` to at least 1, gives the job the freshly generated id `jid`,
appends it at the tail of that `pc_id`'s queue (other queues untouched), and
answers with the new `job_id` and the resulting queue depth. -/
theorem enqueue_success (apiKey : String) (pcs : PcRegistry) (st : BrokerSt)
    (body : EnqueueBody) (xApiKey : Option String) (jid : String) (ts : Nat)
    (expect : String)
    (hk : apiKeyRejects apiKey xApiKey = false)
    (hpc : dictGet pcs body.pc_id = some expect) :
    (enqueue apiKey pcs st body xApiKey jid ts).1 =
        Except.ok ⟨jid, ((dictGet st body.pc_id).getD []).length + 1⟩ ∧
    dictGet (enqueue apiKey pcs st body xApiKey jid ts).2 body.pc_id =
        some (((dictGet st body.pc_id).getD []) ++ [mkJob body jid ts]) ∧
    (mkJob body jid ts).orders = body.orders.map stripHash ∧
    (mkJob body jid ts).copies = max 1 body.copies ∧
    1 ≤ (mkJob body jid ts).copies ∧
    (mkJob body jid ts).job_id = jid ∧
    (∀ pc', pc' ≠ body.pc_id →
      dictGet (enqueue apiKey pcs st body xApiKey jid ts).2 pc' = dictGet st pc') := by
  have henq := enqueue_ok_eq apiKey pcs st body xApiKey jid ts expect hk hpc
  refine ⟨?_, ?_, rfl, rfl, le_max_left 1 body.copies, rfl, ?_⟩
  · rw [henq]; simp
  · rw [henq]; exact dictGet_dictSet_self st body.pc_id _
  · intro pc' hne
    rw [henq]
    exact dictGet_dictSet_ne st body.pc_id pc' _ hne

/-- Concrete enqueue body fixture (scenario A of the spec). -/
def bodyFix : EnqueueBody :=
  { pc_id := "pc-lab-1", orders := ["#1001", "1002"], copies := 2,
    pdf_url := none, store := none }

theorem enqueue_success_witness :
    (apiKeyRejects "K" (some "K") = false ∧
      dictGet pcsFix "pc-lab-1" = some "SECRET1") ∧
    (enqueue "K" pcsFix [] bodyFix (some "K") "jid-1" 7).1 =
        Except.ok ⟨"jid-1", 1⟩ ∧
    (mkJob bodyFix "jid-1" 7).orders = ["1001", "1002"] := by
  refine ⟨⟨by decide, by decide⟩, ?_, ?_⟩
  · have h := (enqueue_success "K" pcsFix [] bodyFix (some "K") "jid-1" 7
      "SECRET1" (by decide) (by decide)).1
    simpa [bodyFix] using h
  · have h := (enqueue_success "K" pcsFix [] bodyFix (some "K") "jid-1" 7
      "SECRET1" (by decide) (by decide)).2.2.1
    simpa [bodyFix, stripHash] using h

/-- C9: `enqueue` fails 401 when the shared API key is configured and the
`x-api-key` header is absent or different, fails 404 when the key matches but
`pc_id` is not registered, succeeds otherwise; on either failure no queue is
touched. -/
theorem enqueue_auth (apiKey : String) (pcs : PcRegistry) (st : BrokerSt)
    (body : EnqueueBody) (xApiKey : Option String) (jid : String) (ts : Nat)
    (hk : apiKey ≠ "") :
    (xApiKey ≠ some apiKey →
      enqueue apiKey pcs st body xApiKey jid ts =
        (Except.error ⟨401, "bad api key"⟩, st)) ∧
    (xApiKey = some apiKey → dictGet pcs body.pc_id = none →
      enqueue apiKey pcs st body xApiKey jid ts =
        (Except.error ⟨404, "unknown pc_id"⟩, st)) ∧
    (xApiKey = some apiKey → ∀ e, dictGet pcs body.pc_id = some e →
      (enqueue apiKey pcs st body xApiKey jid ts).1 =
        Except.ok ⟨jid, ((dictGet st body.pc_id).getD []).length + 1⟩) := by
  refine ⟨?_, ?_, ?_⟩
  · intro hx
    have hrej : apiKeyRejects apiKey xApiKey = true := by
      simp [apiKeyRejects, hk, hx]
    simp [enqueue, hrej]
  · intro hx hno
    have hrej : apiKeyRejects apiKey xApiKey = false := by
      simp [apiKeyRejects, hx]
    simp [enqueue, hrej, hno]
  · intro hx e he
    have hrej : apiKeyRejects apiKey xApiKey = false := by
      simp [apiKeyRejects, hx]
    rw [enqueue_ok_eq apiKey pcs st body xApiKey jid ts e hrej he]
    simp

theorem enqueue_auth_witness :
    ("K" ≠ "" ∧ some "BAD" ≠ some "K") ∧
    enqueue "K" pcsFix [] bodyFix (some "BAD") "jid-1" 7 =
      (Except.error ⟨401, "bad api key"⟩, []) :=
  ⟨⟨by decide, by decide⟩,
    (enqueue_auth "K" pcsFix [] bodyFix (some "BAD") "jid-1" 7 (by decide)).1
      (by decide)⟩

/-! ## Claims about the completeness predicate -/

/-- Record exposing the or-chain pitfall: the whitespace-only customer email
is truthy, gets selected before the non-empty root-level email, and trims to
empty. -/
def maskRec : OverrideRecord :=
  { store := none
    customer := some { displayName := some "John", email := some " ", phone := none }
    shippingAddress := none
    email := some "j@x.com"
    phone := none
    tags := none }

/-- C6 counterexample: the spec-worded predicate ("a non-empty email or phone
is found among customer, root-level fields, or shipping address") and the
implemented predicate disagree on `maskRec`, so the code does not compute
exactly the predicate the claim describes. -/
theorem completeness_spec_counterexample :
    specComplete maskRec = true ∧
    overrideIsComplete maskRec = false ∧
    agentIsComplete (some maskRec) = false := by
  refine ⟨?_, ?_, ?_⟩ <;> decide

/-- C6 (amended): agent `_is_complete` and backend `_override_is_complete`
compute the same predicate and agree on every record (the agent additionally
maps a missing record to `false`); the implemented contact check picks the
first truthy value of each Python `or`-chain and trims afterwards, hence it
implies the spec's "found among" reading but is not implied by it. -/
theorem completeness_predicates_agree (r : OverrideRecord) :
    agentIsComplete (some r) = overrideIsComplete r ∧
    agentIsComplete none = false ∧
    (overrideIsComplete r = true → specComplete r = true) := by
  refine ⟨rfl, rfl, ?_⟩
  unfold overrideIsComplete specComplete
  by_cases he : strOf (r.customer.getD emptyCustomer).email = "" <;>
    by_cases hp : strOf (r.customer.getD emptyCustomer).phone = "" <;>
      by_cases hrp : strOf r.phone = "" <;>
        simp_all [pyOrStr] <;> tauto

theorem completeness_predicates_agree_witness :
    agentIsComplete (some maskRec) = overrideIsComplete maskRec ∧
    agentIsComplete none = false ∧
    (overrideIsComplete maskRec = true → specComplete maskRec = true) :=
  completeness_predicates_agree maskRec

/-! ## Claims about the override cache -/

/-- A step of the fetch loop at a different key never touches `k`'s entries. -/
theorem fetchLiveStep_get_ne (env : OvEnv) (storeKey : String) (force : Bool)
    (s : OvState) (k0 k : String) (hk : k ≠ k0) :
    dictGet (fetchLiveStep env storeKey force s k0).out k = dictGet s.out k ∧
    dictGet (fetchLiveStep env storeKey force s k0).cache k = dictGet s.cache k := by
  by_cases hs : skipKey s k0 force
  · simp [fetchLiveStep, hs]
  · rcases hf : env.fetchOrder storeKey k0 with _ | o <;>
      simp [fetchLiveStep, hs, hf, dictGet_dictSet_ne _ _ _ _ hk]

/-- A step of the fetch loop only ever appends its own key to the log. -/
theorem fetchLiveStep_fetched (env : OvEnv) (storeKey : String) (force : Bool)
    (s : OvState) (k0 : String) :
    (fetchLiveStep env storeKey force s k0).fetched = s.fetched ∨
    (fetchLiveStep env storeKey force s k0).fetched =
      s.fetched ++ [(storeKey, k0)] := by
  by_cases hs : skipKey s k0 force
  · left; simp [fetchLiveStep, hs]
  · rcases hf : env.fetchOrder storeKey k0 with _ | o <;>
      simp [fetchLiveStep, hs, hf]

/-- A step at a key whose `out` entry is complete, without `force_live`,
does nothing. -/
theorem fetchLiveStep_skip (env : OvEnv) (storeKey : String) (s : OvState)
    (k0 : String) (r : OverrideRecord) (hr : dictGet s.out k0 = some r)
    (hc : overrideIsComplete r = true) :
    fetchLiveStep env storeKey false s k0 = s := by
  have hs : skipKey s k0 false = true := by simp [skipKey, hr, hc]
  simp [fetchLiveStep, hs]

/-- Core invariant of the `_fetch_live_for_store` loop when not forcing live:
an order key whose `out` entry is complete is never fetched, and neither its
`out` entry nor its cache entry changes; writes at other keys cannot touch it. -/
theorem fetchLiveFold_no_touch (env : OvEnv) (storeKey : String)
    (keys : List String) (k : String) :
    ∀ s : OvState,
      (k ∈ keys → ∃ r, dictGet s.out k = some r ∧ overrideIsComplete r = true) →
      dictGet (keys.foldl (fetchLiveStep env storeKey false) s).out k =
          dictGet s.out k ∧
      dictGet (keys.foldl (fetchLiveStep env storeKey false) s).cache k =
          dictGet s.cache k ∧
      ∀ p ∈ (keys.foldl (fetchLiveStep env storeKey false) s).fetched,
        p ∈ s.fetched ∨ p.2 ≠ k := by
  induction keys with
  | nil => intro s _; exact ⟨rfl, rfl, fun p hp => Or.inl hp⟩
  | cons k0 t ih =>
    intro s hmem
    rw [List.foldl_cons]
    by_cases hk : k0 = k
    · subst hk
      obtain ⟨r, hr, hc⟩ := hmem (List.mem_cons_self k0 t)
      rw [fetchLiveStep_skip env storeKey s k0 r hr hc]
      exact ih s (fun _ => ⟨r, hr, hc⟩)
    · have hne : k ≠ k0 := fun h => hk h.symm
      have hstep := fetchLiveStep_get_ne env storeKey false s k0 k hne
      have hmem' : k ∈ t →
          ∃ r, dictGet (fetchLiveStep env storeKey false s k0).out k = some r ∧
            overrideIsComplete r = true := by
        intro hm
        obtain ⟨r, hr, hc⟩ := hmem (List.mem_cons_of_mem k0 hm)
        exact ⟨r, hstep.1 ▸ hr, hc⟩
      obtain ⟨h1, h2, h3⟩ := ih (fetchLiveStep env storeKey false s k0) hmem'
      refine ⟨h1.trans hstep.1, h2.trans hstep.2, ?_⟩
      intro p hp
      rcases h3 p hp with hp' | hp'
      · rcases fetchLiveStep_fetched env storeKey false s k0 with hf | hf
        · rw [hf] at hp'; exact Or.inl hp'
        · rw [hf] at hp'
          rcases List.mem_append.mp hp' with hp'' | hp''
          · exact Or.inl hp''
          · right
            have hpk : p = (storeKey, k0) := List.mem_singleton.mp hp''
            rw [hpk]
            exact fun h => hne h.symm
      · exact Or.inr hp'

/-- The seeding loop puts the cached record of every requested key into `out`. -/
theorem seedFromCache_mem (cache : OvCache) (k : String) (r : OverrideRecord)
    (hc : dictGet cache k = some r) :
    ∀ (keys : List String) (acc : OvMap),
      (k ∈ keys ∨ dictGet acc k = some r) →
      dictGet (keys.foldl
        (fun acc k' =>
          match dictGet cache k' with
          | some r' => dictSet acc k' r'
          | none => acc) acc) k = some r := by
  intro keys
  induction keys with
  | nil =>
    intro acc h
    rcases h with h | h
    · exact absurd h (List.not_mem_nil k)
    · exact h
  | cons k0 t ih =>
    intro acc h
    rw [List.foldl_cons]
    by_cases hk : k0 = k
    · subst hk
      apply ih
      right
      rw [hc]
      exact dictGet_dictSet_self acc k0 r
    · have hne : k ≠ k0 := fun hh => hk hh.symm
      apply ih
      rcases h with h | h
      · rcases List.mem_cons.mp h with h' | h'
        · exact absurd h'.symm hk
        · exact Or.inl h'
      · right
        rcases hd : dictGet cache k0 with _ | r0
        · exact h
        · rw [dictGet_dictSet_ne acc k0 k r0 hne]
          exact h

/-- The no-touch invariant lifted through `_fetch_live_for_store`. -/
theorem fetchLiveForStore_no_touch (env : OvEnv) (keys : List String)
    (storeKey : String) (s : OvState) (k : String)
    (hmem : k ∈ keys → ∃ r, dictGet s.out k = some r ∧ overrideIsComplete r = true) :
    dictGet (fetchLiveForStore env keys storeKey false s).out k = dictGet s.out k ∧
    dictGet (fetchLiveForStore env keys storeKey false s).cache k = dictGet s.cache k ∧
    ∀ p ∈ (fetchLiveForStore env keys storeKey false s).fetched,
      p ∈ s.fetched ∨ p.2 ≠ k := by
  unfold fetchLiveForStore
  by_cases ha : env.avail storeKey
  · simp only [ha, if_true]
    exact fetchLiveFold_no_touch env storeKey keys k s hmem
  · simp only [ha]
    exact ⟨rfl, rfl, fun p hp => Or.inl hp⟩

/-- One non-forced `get_overrides` call never fetches a completely cached
order and leaves its cache entry unchanged. -/
theorem getOverrides_no_refetch_core (env : OvEnv) (cache : OvCache)
    (ordersCsv : String) (store : Option String) (k : String)
    (r : OverrideRecord) (hc : dictGet cache k = some r)
    (hcomp : overrideIsComplete r = true) :
    (∀ p ∈ (getOverrides env cache ordersCsv store false).fetched, p.2 ≠ k) ∧
    dictGet (getOverrides env cache ordersCsv store false).cache k = some r := by
  have hseed : k ∈ parseOrdersCsv ordersCsv →
      ∃ r', dictGet (OvState.mk (seedFromCache cache (parseOrdersCsv ordersCsv))
        cache []).out k = some r' ∧ overrideIsComplete r' = true := by
    intro hm
    exact ⟨r, seedFromCache_mem cache k r hc _ [] (Or.inl hm), hcomp⟩
  unfold getOverrides
  by_cases hsk : pyLower (pyStrip (strOf store)) ≠ ""
  · rw [if_pos hsk]
    obtain ⟨h1, h2, h3⟩ :=
      fetchLiveForStore_no_touch env (parseOrdersCsv ordersCsv)
        (pyLower (pyStrip (strOf store)))
        ⟨seedFromCache cache (parseOrdersCsv ordersCsv), cache, []⟩ k hseed
    refine ⟨?_, h2.trans hc⟩
    intro p hp
    rcases h3 p hp with hp' | hp'
    · exact absurd hp' (List.not_mem_nil p)
    · exact hp'
  · rw [if_neg hsk]
    obtain ⟨h1, h2, h3⟩ :=
      fetchLiveForStore_no_touch env (parseOrdersCsv ordersCsv) "irrakids"
        ⟨seedFromCache cache (parseOrdersCsv ordersCsv), cache, []⟩ k hseed
    have hmem1 : k ∈ parseOrdersCsv ordersCsv →
        ∃ r', dictGet (fetchLiveForStore env (parseOrdersCsv ordersCsv) "irrakids"
          false ⟨seedFromCache cache (parseOrdersCsv ordersCsv), cache, []⟩).out k =
            some r' ∧ overrideIsComplete r' = true := by
      intro hm
      obtain ⟨r', hr', hc'⟩ := hseed hm
      exact ⟨r', h1.trans hr', hc'⟩
    obtain ⟨g1, g2, g3⟩ :=
      fetchLiveForStore_no_touch env (parseOrdersCsv ordersCsv) "irranova"
        (fetchLiveForStore env (parseOrdersCsv ordersCsv) "irrakids" false
          ⟨seedFromCache cache (parseOrdersCsv ordersCsv), cache, []⟩) k hmem1
    refine ⟨?_, g2.trans (h2.trans hc)⟩
    intro p hp
    rcases g3 p hp with hp' | hp'
    · rcases h3 p hp' with hp'' | hp''
      · exact absurd hp'' (List.not_mem_nil p)
      · exact hp''
    · exact hp'

/-- C7: an order whose cached record is already complete is never live-fetched
by a `get_overrides` call with `force_live=false`, and its cache entry is left
unchanged; consequently a second non-forced call behaves the same way
(idempotent and side-effect-free on the cache hit). -/
theorem getOverrides_cache_hit_idempotent (env : OvEnv) (cache : OvCache)
    (ordersCsv : String) (store : Option String) (k : String)
    (r : OverrideRecord) (hc : dictGet cache k = some r)
    (hcomp : overrideIsComplete r = true) :
    (∀ p ∈ (getOverrides env cache ordersCsv store false).fetched, p.2 ≠ k) ∧
    dictGet (getOverrides env cache ordersCsv store false).cache k = some r ∧
    (∀ (ordersCsv2 : String) (store2 : Option String),
      (∀ p ∈ (getOverrides env (getOverrides env cache ordersCsv store false).cache
          ordersCsv2 store2 false).fetched, p.2 ≠ k) ∧
      dictGet (getOverrides env (getOverrides env cache ordersCsv store false).cache
          ordersCsv2 store2 false).cache k = some r) := by
  obtain ⟨h1, h2⟩ := getOverrides_no_refetch_core env cache ordersCsv store k r hc hcomp
  exact ⟨h1, h2, fun csv2 st2 =>
    getOverrides_no_refetch_core env _ csv2 st2 k r h2 hcomp⟩

/-- A complete override record (used as a cached fixture). -/
def fullRec : OverrideRecord :=
  { store := none
    customer := some { displayName := some "John", email := some "j@x.com", phone := none }
    shippingAddress := none
    email := none
    phone := none
    tags := none }

/-- Oracle fixture: both stores available, every live fetch succeeds with an
order that carries no customer data at all. -/
def envFix : OvEnv :=
  { avail := fun _ => true
    fetchOrder := fun _ _ =>
      some { customer := none, shipping_address := none, email := none, phone := none } }

theorem getOverrides_cache_hit_idempotent_witness :
    (dictGet [("1001", fullRec)] "1001" = some fullRec ∧
      overrideIsComplete fullRec = true) ∧
    (∀ p ∈ (getOverrides envFix [("1001", fullRec)] "1001" none false).fetched,
      p.2 ≠ "1001") ∧
    dictGet (getOverrides envFix [("1001", fullRec)] "1001" none false).cache
      "1001" = some fullRec :=
  ⟨⟨by decide, by decide⟩,
    (getOverrides_cache_hit_idempotent envFix [("1001", fullRec)] "1001" none
      "1001" fullRec (by decide) (by decide)).1,
    (getOverrides_cache_hit_idempotent envFix [("1001", fullRec)] "1001" none
      "1001" fullRec (by decide) (by decide)).2.1⟩

/-- A webhook payload carrying an order name but no customer data at all. -/
def blankPayload : WebhookPayload :=
  { name := some "#1001", customer := none, shipping_address := none,
    email := none, phone := none, tags := none }

/-- C3 counterexample: the cache holds a complete record for order `1001`;
a single webhook push whose payload carries no customer data replaces it with
a record that fails the completeness predicate — the cache does downgrade. -/
theorem override_cache_downgrade_counterexample :
    overrideIsComplete fullRec = true ∧
    dictGet [("1001", fullRec)] "1001" = some fullRec ∧
    (dictGet (ordersUpdateWebhook [("1001", fullRec)] blankPayload "irranova")
        "1001").map overrideIsComplete = some false := by
  refine ⟨by decide, by decide, by decide⟩

/-- C3 (amended): the override cache does not enforce a no-downgrade rule: a
webhook push whose payload names an order unconditionally replaces that
order's cache entry with the record built from the payload — whatever the
completeness of either record — and leaves every other entry unchanged.
(Only the non-forced `get_overrides` path protects complete entries, by
skipping the fetch; see the cache-hit theorem.) -/
theorem webhook_overwrites_unconditionally (cache : OvCache)
    (data : WebhookPayload) (storeKey : String)
    (hname : pyStrip (strOf data.name) ≠ "") :
    dictGet (ordersUpdateWebhook cache data storeKey)
        (stripHash (pyStrip (strOf data.name))) =
      some (webhookOverride data storeKey) ∧
    ∀ k', k' ≠ stripHash (pyStrip (strOf data.name)) →
      dictGet (ordersUpdateWebhook cache data storeKey) k' = dictGet cache k' := by
  unfold ordersUpdateWebhook
  rw [if_pos hname]
  exact ⟨dictGet_dictSet_self cache _ _,
    fun k' hk' => dictGet_dictSet_ne cache _ k' _ hk'⟩

theorem webhook_overwrites_unconditionally_witness :
    (pyStrip (strOf blankPayload.name) ≠ "") ∧
    dictGet (ordersUpdateWebhook [("1001", fullRec)] blankPayload "irranova")
        (stripHash (pyStrip (strOf blankPayload.name))) =
      some (webhookOverride blankPayload "irranova") :=
  ⟨by decide,
    (webhook_overwrites_unconditionally [("1001", fullRec)] blankPayload
      "irranova" (by decide)).1⟩

/-! ## Claims about the agent -/

/-- `print_locally` either blocks before the sink (returning `False`) or
invokes the sink and returns the interpretation of its answer. -/
theorem printLocally_cases (env : PLEnv) (orders : List String)
    (store : Option String) :
    ((printLocally env orders store).sinkInvoked = false ∧
      (printLocally env orders store).result = Except.ok false) ∨
    ((printLocally env orders store).sinkInvoked = true ∧
      (printLocally env orders store).result = sinkResult env) := by
  unfold printLocally
  split
  · split
    · exact Or.inl ⟨rfl, rfl⟩
    · exact Or.inr ⟨rfl, rfl⟩
  · exact Or.inr ⟨rfl, rfl⟩

/-- The two possible outcomes of handling one pulled job. -/
theorem processJob_cases (jenv : JobEnv) (job : Job) :
    ((printLocally jenv.pl job.orders job.store).result = Except.ok true ∧
      processJob jenv job =
        ⟨job.job_id, printLocally jenv.pl job.orders job.store, true, true,
          !jenv.ackOk, false, none, false⟩) ∨
    ((printLocally jenv.pl job.orders job.store).result ≠ Except.ok true ∧
      processJob jenv job =
        ⟨job.job_id, printLocally jenv.pl job.orders job.store, false, false,
          false, true, some (requeuePayloadOf job.orders job.copies job.store),
          jenv.requeueOk⟩) := by
  rcases h : (printLocally jenv.pl job.orders job.store).result with e | b
  · exact Or.inr ⟨by simp [h], by simp [processJob, h]⟩
  · cases b
    · exact Or.inr ⟨by simp [h], by simp [processJob, h]⟩
    · exact Or.inl ⟨rfl, by simp [processJob, h]⟩

/-- C4: the agent treats a job as printed iff the sink's body carries no
explicit falsy `ok` and no truthy `skipped_all` — so `{ok:true,
skipped_all:true}` counts as not printed — and every not-printed outcome
requeues (a fresh enqueue with the same orders, copies and store, for a
broker-normalized job) instead of acking. -/
theorem sink_response_not_printed_requeues (d : SinkResp) (jenv : JobEnv)
    (job : Job) :
    (interpretSinkResp d = true ↔ d.ok ≠ some false ∧ d.skipped_all ≠ some true) ∧
    interpretSinkResp ⟨some true, some true⟩ = false ∧
    ((printLocally jenv.pl job.orders job.store).sinkInvoked = true →
      (printLocally jenv.pl job.orders job.store).result = sinkResult jenv.pl) ∧
    ((processJob jenv job).printed = false →
      (processJob jenv job).requeueCalled = true ∧
      (processJob jenv job).ackCalled = false ∧
      (processJob jenv job).requeuePayload =
        some (requeuePayloadOf job.orders job.copies job.store)) ∧
    ((∀ o ∈ job.orders, stripHash o = o) → job.copies ≠ 0 → job.store ≠ some "" →
      requeuePayloadOf job.orders job.copies job.store =
        (job.orders, job.copies, job.store)) := by
  refine ⟨?_, by decide, ?_, ?_, ?_⟩
  · rcases d with ⟨ok, skip⟩
    rcases ok with _ | b <;> rcases skip with _ | b2 <;>
      first
        | (cases b <;> cases b2 <;> simp [interpretSinkResp])
        | (cases b <;> simp [interpretSinkResp])
        | (cases b2 <;> simp [interpretSinkResp])
        | simp [interpretSinkResp]
  · intro hs
    rcases printLocally_cases jenv.pl job.orders job.store with ⟨h1, _⟩ | ⟨_, h2⟩
    · rw [hs] at h1; exact absurd h1 (by decide)
    · exact h2
  · intro hnp
    rcases processJob_cases jenv job with ⟨_, heq⟩ | ⟨_, heq⟩
    · rw [heq] at hnp
      simp at hnp
    · rw [heq]
      exact ⟨rfl, rfl, rfl⟩
  · intro hfix hcopies hstore
    unfold requeuePayloadOf
    refine congrArg₂ _ ?_ (congrArg₂ _ ?_ ?_)
    · exact List.map_congr_left hfix |>.trans (List.map_id job.orders)
    · simp [hcopies]
    · rcases hst : job.store with _ | sv
      · simp [optTruthy]
      · have hsv : sv ≠ "" := fun h => hstore (by rw [hst, h])
        simp [optTruthy, hsv]

/-- Closed-form evaluation of the three-attempt gating loop. -/
theorem runGate_eval (orders : List String) (f : Nat → Bool → OvMap) :
    runGateAttempts orders f gateAttemptsPlan [] =
      (if allComplete orders (f 0 false) then (f 0 false, [(false, 0)])
       else if allComplete orders (f 1 true) then
         (f 1 true, [(false, 0), (true, 1)])
       else (f 2 true, [(false, 0), (true, 1), (true, 2)])) := by
  by_cases h0 : allComplete orders (f 0 false) <;>
    by_cases h1 : allComplete orders (f 1 true) <;>
      by_cases h2 : allComplete orders (f 2 true) <;>
        simp [runGateAttempts, gateAttemptsPlan, waitSecs, h0, h1, h2, List.getD]

/-- The attempt trace: a success-truncated prefix of
`[(False, 0), (True, 1), (True, 2)]`. -/
theorem gateLoopTrace_eval (env : PLEnv) (orders : List String) :
    gateLoopTrace env orders =
      (if allComplete orders (env.fetch 0 false) then [(false, 0)]
       else if allComplete orders (env.fetch 1 true) then
         [(false, 0), (true, 1)]
       else [(false, 0), (true, 1), (true, 2)]) := by
  unfold gateLoopTrace
  rw [runGate_eval]
  by_cases h0 : allComplete orders (env.fetch 0 false) <;>
    by_cases h1 : allComplete orders (env.fetch 1 true) <;>
      simp [h0, h1]

/-- The overrides after the loop: the result of the last attempt made. -/
theorem gateLoopOv_eval (env : PLEnv) (orders : List String) :
    gateLoopOv env orders =
      (if allComplete orders (env.fetch 0 false) then env.fetch 0 false
       else if allComplete orders (env.fetch 1 true) then env.fetch 1 true
       else env.fetch 2 true) := by
  unfold gateLoopOv
  rw [runGate_eval]
  by_cases h0 : allComplete orders (env.fetch 0 false) <;>
    by_cases h1 : allComplete orders (env.fetch 1 true) <;>
      simp [h0, h1]

/-- C1: for a pulled job whose store is `"irranova"` or unspecified, the gate
makes at most 3 fetch attempts, with backoff delays 0s/1s/2s and
`force_live=true` on every attempt after the first, stopping early once every
order's record is complete; if still incomplete and the store was
unspecified, exactly one extra forced-live call targets the fallback store
for the missing orders; and if any order is still incomplete after that, the
print sink is never invoked and the job is requeued instead of acked. -/
theorem gating_algorithm (jenv : JobEnv) (job : Job)
    (hstore : job.store = none ∨ job.store = some "irranova") :
    (processJob jenv job).trace = printLocally jenv.pl job.orders job.store ∧
    (printLocally jenv.pl job.orders job.store).gateAttempts =
      gateLoopTrace jenv.pl job.orders ∧
    1 ≤ (gateLoopTrace jenv.pl job.orders).length ∧
    (gateLoopTrace jenv.pl job.orders).length ≤ 3 ∧
    gateLoopTrace jenv.pl job.orders =
      List.take (gateLoopTrace jenv.pl job.orders).length
        [(false, 0), (true, 1), (true, 2)] ∧
    (∀ i, i + 1 < (gateLoopTrace jenv.pl job.orders).length →
      allComplete job.orders (jenv.pl.fetch i (decide (0 < i))) = false) ∧
    ((gateLoopTrace jenv.pl job.orders).length < 3 →
      allComplete job.orders
        (jenv.pl.fetch ((gateLoopTrace jenv.pl job.orders).length - 1)
          (decide (0 < (gateLoopTrace jenv.pl job.orders).length - 1))) = true) ∧
    (printLocally jenv.pl job.orders job.store).fallbackCall =
      (if missingOf job.orders (gateLoopOv jenv.pl job.orders) ≠ [] ∧
          job.store = none
       then some (missingOf job.orders (gateLoopOv jenv.pl job.orders))
       else none) ∧
    (missingOf job.orders
        (gatedFallback jenv.pl job.orders
          (pyLower (pyStrip (strOf job.store)))).1 ≠ [] →
      (printLocally jenv.pl job.orders job.store).sinkInvoked = false ∧
      (processJob jenv job).printed = false ∧
      (processJob jenv job).ackCalled = false ∧
      (processJob jenv job).requeueCalled = true) := by
  have hreq : pyLower (pyStrip (strOf job.store)) = "irranova" ∨
      pyLower (pyStrip (strOf job.store)) = "" := by
    rcases hstore with h | h
    · right; rw [h]; decide
    · left; rw [h]; decide
  have htrace : (processJob jenv job).trace =
      printLocally jenv.pl job.orders job.store := by
    rcases processJob_cases jenv job with ⟨_, heq⟩ | ⟨_, heq⟩ <;> rw [heq]
  have hga : (printLocally jenv.pl job.orders job.store).gateAttempts =
      gateLoopTrace jenv.pl job.orders := by
    unfold printLocally
    rw [if_pos hreq]
    split <;> rfl
  have hfb0 : (printLocally jenv.pl job.orders job.store).fallbackCall =
      (gatedFallback jenv.pl job.orders (pyLower (pyStrip (strOf job.store)))).2 := by
    unfold printLocally
    rw [if_pos hreq]
    split <;> rfl
  have htr := gateLoopTrace_eval jenv.pl job.orders
  have hnum : 1 ≤ (gateLoopTrace jenv.pl job.orders).length ∧
      (gateLoopTrace jenv.pl job.orders).length ≤ 3 ∧
      gateLoopTrace jenv.pl job.orders =
        List.take (gateLoopTrace jenv.pl job.orders).length
          [(false, 0), (true, 1), (true, 2)] ∧
      (∀ i, i + 1 < (gateLoopTrace jenv.pl job.orders).length →
        allComplete job.orders (jenv.pl.fetch i (decide (0 < i))) = false) ∧
      ((gateLoopTrace jenv.pl job.orders).length < 3 →
        allComplete job.orders
          (jenv.pl.fetch ((gateLoopTrace jenv.pl job.orders).length - 1)
            (decide (0 < (gateLoopTrace jenv.pl job.orders).length - 1))) = true) := by
    by_cases h0 : allComplete job.orders (jenv.pl.fetch 0 false)
    · rw [htr, if_pos h0]
      refine ⟨by simp, by simp, by simp, ?_, ?_⟩
      · intro i hi
        simp at hi
      · intro _
        simpa using h0
    · by_cases h1 : allComplete job.orders (jenv.pl.fetch 1 true)
      · rw [htr, if_neg h0, if_pos h1]
        refine ⟨by simp, by simp, by simp, ?_, ?_⟩
        · intro i hi
          simp at hi
          have : i = 0 := by omega
          subst this
          simpa using h0
        · intro _
          simpa using h1
      · rw [htr, if_neg h0, if_neg h1]
        refine ⟨by simp, by simp, by simp, ?_, ?_⟩
        · intro i hi
          simp at hi
          rcases i with _ | i
          · simpa using h0
          · rcases i with _ | i
            · simpa using h1
            · omega
        · intro h
          simp at h
  have hfb : (printLocally jenv.pl job.orders job.store).fallbackCall =
      (if missingOf job.orders (gateLoopOv jenv.pl job.orders) ≠ [] ∧
          job.store = none
       then some (missingOf job.orders (gateLoopOv jenv.pl job.orders))
       else none) := by
    rw [hfb0]
    unfold gatedFallback
    rcases hstore with h | h
    · rw [h]
      by_cases hm : missingOf job.orders (gateLoopOv jenv.pl job.orders) ≠ []
      · rw [if_pos ⟨hm, by decide⟩, if_pos ⟨hm, rfl⟩]
      · simp at hm
        simp [hm]
    · rw [h]
      have hsk : pyLower (pyStrip (strOf (some "irranova"))) = "irranova" := by decide
      have hne : ¬(missingOf job.orders (gateLoopOv jenv.pl job.orders) ≠ [] ∧
          pyLower (pyStrip (strOf (some "irranova"))) = "") := by
        rintro ⟨_, hc⟩
        rw [hsk] at hc
        exact absurd hc (by decide)
      rw [if_neg hne]
      simp
  have hblock : missingOf job.orders
      (gatedFallback jenv.pl job.orders
        (pyLower (pyStrip (strOf job.store)))).1 ≠ [] →
      (printLocally jenv.pl job.orders job.store).sinkInvoked = false ∧
      (processJob jenv job).printed = false ∧
      (processJob jenv job).ackCalled = false ∧
      (processJob jenv job).requeueCalled = true := by
    intro hm
    have hpl : printLocally jenv.pl job.orders job.store =
        { gateAttempts := gateLoopTrace jenv.pl job.orders
          fallbackCall :=
            (gatedFallback jenv.pl job.orders
              (pyLower (pyStrip (strOf job.store)))).2
          nonGatedFetch := false, sinkInvoked := false
          result := Except.ok false } := by
      unfold printLocally
      rw [if_pos hreq, if_pos hm]
    rcases processJob_cases jenv job with ⟨hres, heq⟩ | ⟨_, heq⟩
    · rw [hpl] at hres
      simp at hres
    · rw [hpl, heq]
      exact ⟨rfl, rfl, rfl, rfl⟩
  exact ⟨htrace, hga, hnum.1, hnum.2.1, hnum.2.2.1, hnum.2.2.2.1,
    hnum.2.2.2.2, hfb, hblock⟩

/-- Agent environment whose override fetches always come back empty. -/
def plEnvEmpty : PLEnv :=
  { fetch := fun _ _ => [], fallback := fun _ => [], sink := some ⟨some true, none⟩ }

/-- Job environment over `plEnvEmpty`, ack and requeue succeeding. -/
def jenvEmpty : JobEnv := { pl := plEnvEmpty, ackOk := true, requeueOk := true }

/-- A store-less single-order job. -/
def jobGate : Job :=
  { job_id := "jg", ts := 0, orders := ["1001"], copies := 1,
    pdf_url := none, store := none }

theorem gating_algorithm_witness :
    (jobGate.store = none ∨ jobGate.store = some "irranova") ∧
    (printLocally jenvEmpty.pl jobGate.orders jobGate.store).sinkInvoked = false ∧
    (processJob jenvEmpty jobGate).requeueCalled = true := by
  refine ⟨Or.inl rfl, ?_, ?_⟩
  · exact ((gating_algorithm jenvEmpty jobGate (Or.inl rfl)).2.2.2.2.2.2.2.2
      (by decide)).1
  · exact ((gating_algorithm jenvEmpty jobGate (Or.inl rfl)).2.2.2.2.2.2.2.2
      (by decide)).2.2.2

/-- An ack outcome is only raised for a job that printed. -/
theorem processJob_ackRaised_printed (jenv : JobEnv) (job : Job)
    (h : (processJob jenv job).ackRaised = true) :
    (processJob jenv job).printed = true := by
  rcases processJob_cases jenv job with ⟨_, heq⟩ | ⟨_, heq⟩ <;>
    rw [heq] at h ⊢
  simp at h

/-- Shape of one batch run: outcomes are a prefix of the jobs; a `False`
caught-flag means every job was handled; a `True` one means the batch ended
at a printed job whose ack raised; no earlier outcome raised. -/
theorem runJobs_spec (env : Nat → JobEnv) :
    ∀ (jobs : List Job) (i : Nat),
      (runJobs env jobs i).1.length ≤ jobs.length ∧
      ((runJobs env jobs i).2 = false →
        (runJobs env jobs i).1.length = jobs.length) ∧
      ((runJobs env jobs i).2 = true →
        ∃ o, (runJobs env jobs i).1.getLast? = some o ∧ o.ackRaised = true ∧
          o.printed = true) ∧
      (∀ o ∈ (runJobs env jobs i).1.dropLast, o.ackRaised = false) := by
  intro jobs
  induction jobs with
  | nil =>
    intro i
    refine ⟨by simp [runJobs], fun _ => by simp [runJobs], ?_, ?_⟩
    · intro h
      simp [runJobs] at h
    · intro o ho
      simp [runJobs] at ho
  | cons job rest ih =>
    intro i
    by_cases ha : (processJob (env i) job).ackRaised
    · have hrj : runJobs env (job :: rest) i = ([processJob (env i) job], true) := by
        simp [runJobs, ha]
      rw [hrj]
      refine ⟨by simp, ?_, ?_, ?_⟩
      · intro h
        simp at h
      · intro _
        exact ⟨processJob (env i) job, by simp, ha,
          processJob_ackRaised_printed (env i) job ha⟩
      · intro o ho
        simp at ho
    · have hrj : runJobs env (job :: rest) i =
          (processJob (env i) job :: (runJobs env rest (i + 1)).1,
            (runJobs env rest (i + 1)).2) := by
        simp [runJobs, ha]
      rw [hrj]
      obtain ⟨l1, l2, l3, l4⟩ := ih (i + 1)
      refine ⟨by simpa using l1, ?_, ?_, ?_⟩
      · intro h
        simpa using l2 h
      · intro h
        obtain ⟨o, ho, ho2, ho3⟩ := l3 h
        refine ⟨o, ?_, ho2, ho3⟩
        rcases hres : (runJobs env rest (i + 1)).1 with _ | ⟨y, ys⟩
        · rw [hres] at ho
          simp at ho
        · rw [hres] at ho
          rw [List.getLast?_cons_cons]
          exact ho
      · intro o ho
        rcases hres : (runJobs env rest (i + 1)).1 with _ | ⟨y, ys⟩
        · rw [hres] at ho
          simp at ho
        · rw [hres, List.dropLast_cons₂] at ho
          rcases List.mem_cons.mp ho with ho' | ho'
          · rw [ho']
            simpa using ha
          · have hl := l4 o
            rw [hres] at hl
            exact hl ho'

theorem sink_response_not_printed_requeues_witness :
    interpretSinkResp ⟨some true, some true⟩ = false :=
  (sink_response_not_printed_requeues ⟨some true, some true⟩ jenvEmpty jobGate).2.1

/-- Evaluation of one normal cycle. -/
theorem runCycle_ok_eval (jobs : List Job) (env : Nat → JobEnv)
    (interval : Nat) :
    runCycle (Except.ok jobs) env interval =
      ⟨(runJobs env jobs 0).1, (runJobs env jobs 0).2,
        if (runJobs env jobs 0).2 then 3 else interval⟩ := by
  unfold runCycle
  rcases h : runJobs env jobs 0 with ⟨os, c⟩
  simp [h]

/-- C10 (amended): an ack failure after a successful print aborts the rest of
the batch — the outcomes are a proper prefix ending at the failed ack — but
the exception never escapes the loop: it is caught at the top level and
followed by the fixed 3-second cooldown (a failed pull likewise); a cycle with
no ack failure handles every pulled job and sleeps the normal interval; and a
requeue failure never aborts the batch (only the last outcome can have
raised). -/
theorem cycle_ack_failure (jobs : List Job) (env : Nat → JobEnv)
    (interval : Nat) :
    (runCycle (Except.ok jobs) env interval).outcomes.length ≤ jobs.length ∧
    ((runCycle (Except.ok jobs) env interval).caught = false →
      (runCycle (Except.ok jobs) env interval).outcomes.length = jobs.length ∧
      (runCycle (Except.ok jobs) env interval).sleepSecs = interval) ∧
    ((runCycle (Except.ok jobs) env interval).caught = true →
      (runCycle (Except.ok jobs) env interval).sleepSecs = 3 ∧
      ∃ o, (runCycle (Except.ok jobs) env interval).outcomes.getLast? = some o ∧
        o.ackRaised = true ∧ o.printed = true) ∧
    (∀ o ∈ (runCycle (Except.ok jobs) env interval).outcomes.dropLast,
      o.ackRaised = false) ∧
    (runCycle (Except.error ()) env interval).caught = true ∧
    (runCycle (Except.error ()) env interval).sleepSecs = 3 := by
  obtain ⟨l1, l2, l3, l4⟩ := runJobs_spec env jobs 0
  rw [runCycle_ok_eval]
  refine ⟨l1, ?_, ?_, l4, rfl, rfl⟩
  · intro h
    simp only at h
    exact ⟨l2 h, by simp [h]⟩
  · intro h
    simp only at h
    exact ⟨by simp [h], l3 h⟩

/-- Agent environment where every fetch returns a complete record, so gating
passes on the first attempt and the sink reports success. -/
def plEnvPrints : PLEnv :=
  { fetch := fun _ _ => [("1001", fullRec)], fallback := fun _ => [],
    sink := some ⟨some true, none⟩ }

/-- Per-job environment in which every ack call fails. -/
def jenvAckFail : Nat → JobEnv :=
  fun _ => { pl := plEnvPrints, ackOk := false, requeueOk := true }

/-- A job for the strict store. -/
def jobIrr (id : String) : Job :=
  { job_id := id, ts := 0, orders := ["1001"], copies := 1,
    pdf_url := none, store := some "irranova" }

/-- C10 counterexample: a batch of two printable jobs whose acks fail — the
first job prints and its ack raises, the second job is never processed, so an
ack failure does block the remaining jobs of the batch (the exception is
caught at the top level with the 3s cooldown, not per job). -/
theorem cycle_aborts_batch_counterexample :
    (runCycle (Except.ok [jobIrr "j1", jobIrr "j2"]) jenvAckFail 2).outcomes.map
        (fun o => (o.jobId, o.printed, o.ackRaised)) = [("j1", true, true)] ∧
    (runCycle (Except.ok [jobIrr "j1", jobIrr "j2"]) jenvAckFail 2).caught = true ∧
    (runCycle (Except.ok [jobIrr "j1", jobIrr "j2"]) jenvAckFail 2).sleepSecs = 3 := by
  refine ⟨?_, ?_, ?_⟩ <;> decide

theorem cycle_ack_failure_witness :
    (runCycle (Except.ok [jobGate]) (fun _ => jenvEmpty) 2).outcomes.length ≤ 1 :=
  (cycle_ack_failure [jobGate] (fun _ => jenvEmpty) 2).1
